import Mathlib

/-!
Verification development for the KijkcijferApp data-ingestion and
aggregation pipeline.

The definitions below are a shallow embedding of the TypeScript sources:
  * src/app/util/excelProcessor.ts  (viewer-data extraction and the
    month summary, `extractHourFromTimeSlot`, `processViewerData`)
  * src/app/util/dataAggregator.ts  (`aggregateMonthsData`)
  * src/app/util/csvProcessor.ts    (`calculateEndTimes`)
  * the persistence module          (`saveProgramData`, `loadProgramData`)

Modelling conventions:
  * JS numbers are modelled as rationals (`ℚ`); `Math.round` is
    floor(x + 1/2) which agrees with JS on non-NaN inputs.
  * Cells of the spreadsheet grid are `string | number | empty`
    (`empty` stands for JS `undefined`, i.e. a missing/blank cell).
    `Number(x)` applied to a non-numeric, non-empty string is NaN in
    JS; NaN propagation is not modelled (no claim depends on it) and
    such strings read as 0 here.
  * JS arrays written at an index beyond their length grow in JS; the
    model's `List.set` is a no-op there.  The only such writes are
    hour indices ≥ 24 coming from `extractHourFromTimeSlot`, and every
    theorem below that touches an hour index carries the bound h < 24,
    where the two semantics agree.
  * `Date` computations (`excelDateToString`, the DD-MM-YYYY sort key)
    are modelled in UTC with the standard civil-calendar conversion;
    the source uses the host timezone, which only shifts which
    calendar day a serial maps to, never the logic under test.
  * JS `Map` is an insertion-ordered association list; `Map.set`
    updates in place when the key exists and appends otherwise.
-/

/-- JS `Math.round`: round half toward positive infinity. -/
def jround (q : ℚ) : ℤ := ⌊q + 1/2⌋

/-- Decimal digit value of a character. -/
def digitVal (c : Char) : ℕ := c.toNat - 48

/-- Parse a (non-empty) run of decimal digits as a natural number. -/
def digitsToNat (l : List Char) : ℕ := l.foldl (fun a c => a * 10 + digitVal c) 0

/-- Parse an optional-sign decimal literal `[+-]?digits[.digits]?`.
`none` models JS `NaN` for strings `Number` cannot parse. -/
def strToNumOpt (s : String) : Option ℚ :=
  let l := s.toList
  if l = [] then some 0 else
  let (sgn, rest) :=
    match l with
    | '-' :: r => ((-1 : ℚ), r)
    | '+' :: r => ((1 : ℚ), r)
    | r => ((1 : ℚ), r)
  let intPart := rest.takeWhile Char.isDigit
  let after := rest.dropWhile Char.isDigit
  match after with
  | [] =>
    if intPart = [] then none
    else some (sgn * (digitsToNat intPart : ℚ))
  | '.' :: frac =>
    if frac.all Char.isDigit ∧ frac ≠ [] ∧ intPart ≠ [] then
      some (sgn * ((digitsToNat intPart : ℚ) +
        (digitsToNat frac : ℚ) / ((10 : ℚ) ^ frac.length)))
    else none
  | _ => none

/-- `String.padStart(2, "0")` applied to the decimal print of an integer. -/
def pad2 (n : ℤ) : String :=
  let s := toString n
  if s.length < 2 then "0" ++ s else s

/-- Days from the civil epoch 1970-01-01 for a (normalized) Gregorian
date; the standard integer civil-calendar algorithm, mirroring what
`new Date(y, m-1, d).getTime()` computes (in UTC). -/
def daysFromCivil (y m d : ℤ) : ℤ :=
  let y2 := if m ≤ 2 then y - 1 else y
  let era := (if 0 ≤ y2 then y2 else y2 - 399) / 400
  let yoe := y2 - era * 400
  let mp := if 2 < m then m - 3 else m + 9
  let doy := (153 * mp + 2) / 5 + d - 1
  let doe := yoe * 365 + yoe / 4 - yoe / 100 + doy
  era * 146097 + doe - 719468

/-- Civil Gregorian date (year, month, day) from days since 1970-01-01. -/
def civilFromDays (z0 : ℤ) : ℤ × ℤ × ℤ :=
  let z := z0 + 719468
  let era := (if 0 ≤ z then z else z - 146096) / 146097
  let doe := z - era * 146097
  let yoe := (doe - doe / 1460 + doe / 36524 - doe / 146096) / 365
  let y := yoe + era * 400
  let doy := doe - (365 * yoe + yoe / 4 - yoe / 100)
  let mp := (5 * doy + 2) / 153
  let d := doy - (153 * mp + 2) / 5 + 1
  let m := if mp < 10 then mp + 3 else mp - 9
  (if m ≤ 2 then y + 1 else y, m, d)

/-- excelProcessor.ts `excelDateToString` (lines 7-17): convert an Excel
serial number to a `DD-MM-YYYY` string.  Empty string for a falsy (0)
serial. -/
def excelDateToString (serial : ℚ) : String :=
  if serial = 0 then "" else
  let utcDays := ⌊serial - 25569⌋
  let c := civilFromDays utcDays
  pad2 c.2.2 ++ "-" ++ pad2 c.2.1 ++ "-" ++ toString c.1

/-- Sort key used for `DD-MM-YYYY` strings: the source does
`new Date(y, m-1, d).getTime()`.  `none` models an invalid date (NaN
components).  The month/day normalization and the 1900-shift for
two-digit years follow the JS `Date` constructor. -/
def dateSortKey (s : String) : Option ℤ :=
  match s.splitOn "-" with
  | [ds, ms, ys] =>
    match strToNumOpt ds, strToNumOpt ms, strToNumOpt ys with
    | some dq, some mq, some yq =>
      if dq.den = 1 ∧ mq.den = 1 ∧ yq.den = 1 then
        let y0 := yq.num
        let y1 := if 0 ≤ y0 ∧ y0 ≤ 99 then y0 + 1900 else y0
        let m0 := mq.num - 1
        let y2 := y1 + m0.fdiv 12
        let m1 := m0.emod 12 + 1
        some (daysFromCivil y2 m1 1 + (dq.num - 1))
      else none
    | _, _, _ => none
  | _ => none

/-- The date comparator both aggregation sites use (excelProcessor.ts
lines 334-344, dataAggregator.ts lines 39-49): compare the two
timestamps; a NaN timestamp makes the comparator return 0 (keep
order). -/
def dateCompare (a b : String) : ℤ :=
  match dateSortKey a, dateSortKey b with
  | some x, some y => x - y
  | _, _ => 0

/-- Stable insertion keeping `y` before `x` whenever `le y x`. -/
def insertLe (le : α → Bool) (x : α) : List α → List α
  | [] => [x]
  | y :: ys => if le y then y :: insertLe le x ys else x :: y :: ys

/-- Stable comparator sort, the model of `Array.prototype.sort`
(stable since ES2019): each element is inserted after all already
placed elements that do not compare greater. -/
def sortByCmp (cmp : α → α → ℤ) (l : List α) : List α :=
  l.foldl (fun acc x => insertLe (fun y => cmp y x ≤ 0) x acc) []

/-! ## The cell grid -/

/-- A spreadsheet cell as delivered by `sheet_to_json(…, { header: 1 })`:
a string, a number, or missing (`undefined`). -/
inductive Cell where
  | str (s : String)
  | num (q : ℚ)
  | empty
deriving DecidableEq, Inhabited

abbrev Row := List Cell

abbrev Grid := List Row

/-- `row[i]`: JS indexing past the end yields `undefined`. -/
def getCell (row : Row) (i : ℕ) : Cell := row.getD i Cell.empty

/-- JS truthiness of a cell: `0`, `""` and `undefined` are falsy. -/
def cellTruthy : Cell → Bool
  | Cell.str s => s ≠ ""
  | Cell.num q => q ≠ 0
  | Cell.empty => false

/-- `cell?.toString() || ''`.  Integer numbers print in decimal; a
non-integer rational prints with a slash, which no time-slot pattern
matches, which is also how JS decimal prints behave at those sites. -/
def cellToStrOrEmpty : Cell → String
  | Cell.str s => s
  | Cell.num q => if q.den = 1 then toString q.num else toString q.num ++ "/" ++ toString q.den
  | Cell.empty => ""

/-- `Number(cell || 0)` (NaN from non-numeric strings reads as 0, see
the file comment). -/
def jsNumOr0 : Cell → ℚ
  | Cell.str s => if s = "" then 0 else (strToNumOpt s).getD 0
  | Cell.num q => q
  | Cell.empty => 0

/-- `Number(cell)` on a cell already known to be defined. -/
def jsNumber : Cell → ℚ
  | Cell.str s => (strToNumOpt s).getD 0
  | Cell.num q => q
  | Cell.empty => 0

/-- `haystack.includes(needle)` on strings. -/
def strIncludesAux (needle : List Char) : List Char → Bool
  | [] => needle.isPrefixOf []
  | c :: rest => needle.isPrefixOf (c :: rest) || strIncludesAux needle rest

def strIncludes (hay needle : String) : Bool :=
  strIncludesAux needle.toList hay.toList

/-! ## Data model (src/app/types.ts) -/

/-- types.ts `AgeGroupData`. -/
structure AgeGroupData where
  viewers13Plus : ℚ
  viewers50Plus : ℚ
  viewers65Plus : ℚ
deriving DecidableEq, Inhabited

/-- types.ts `ProgramData`. -/
structure ProgramData where
  id : Option String := none
  title : String := ""
  startTime : String := ""
  endTime : Option String := none
  duration : Option ℤ := none
  day : Option String := none
  dayOfWeek : Option String := none
  category : Option String := none
  isRepeat : Option Bool := none
  notes : Option String := none
  sequence : Option ℤ := none
  originalTime : Option String := none
  timePoint : Option String := none
  week : Option ℤ := none
deriving DecidableEq, Inhabited

/-- types.ts `DailyData`. -/
structure DailyData where
  date : String
  dayOfWeek : String := ""
  totalViewers : ℚ
  hourlyViewers : List ℚ
  hourlyPercentages : List ℚ
  ageGroups : Option (List AgeGroupData) := none
  programs : Option (List ProgramData) := none
deriving DecidableEq, Inhabited

/-- types.ts `ProcessedMonthData`. -/
structure ProcessedMonthData where
  monthYear : String
  days : List DailyData
  averageHourlyViewers : List ℚ
  maxViewersPerHour : List ℚ
  totalViewersPerHour : List ℚ
  averageAgeGroups : Option (List AgeGroupData) := none
  totalAgeGroups : Option (List AgeGroupData) := none
  peakDay : String
  peakHour : ℤ
  totalViewers : ℚ
deriving DecidableEq, Inhabited

/-- types.ts `ScheduleData`; `days` is the insertion-ordered `Map`. -/
structure ScheduleData where
  weekNumber : ℚ
  year : ℚ
  days : List (String × List ProgramData)
  programs : Option (List ProgramData) := none
  weeks : Option (List ℚ) := none
deriving DecidableEq, Inhabited

/-! ## Insertion-ordered string-keyed map (JS `Map`) -/

/-- `Map.get(k)`. -/
def mapGet? (m : List (String × α)) (k : String) : Option α :=
  match m with
  | [] => none
  | (k0, v0) :: rest => if k0 = k then some v0 else mapGet? rest k

/-- `Map.set(k, v)`: replace in place if present, else append. -/
def upsert (m : List (String × α)) (k : String) (v : α) : List (String × α) :=
  match m with
  | [] => [(k, v)]
  | (k0, v0) :: rest => if k0 = k then (k, v) :: rest else (k0, v0) :: upsert rest k v

/-! ## extractHourFromTimeSlot (excelProcessor.ts lines 81-117) -/

/-- Regex `^(\d{2}):00-\d{2}:59$`, returning the captured hour. -/
def matchStandardFormat (s : List Char) : Option ℕ :=
  match s with
  | [a, b, ':', '0', '0', '-', c, d, ':', '5', '9'] =>
    if a.isDigit && b.isDigit && c.isDigit && d.isDigit then
      some (10 * digitVal a + digitVal b)
    else none
  | _ => none

/-- Regex `^(\d{2})-(\d{2})$`, returning the first captured hour. -/
def matchDashFormat (s : List Char) : Option ℕ :=
  match s with
  | [a, b, '-', c, d] =>
    if a.isDigit && b.isDigit && c.isDigit && d.isDigit then
      some (10 * digitVal a + digitVal b)
    else none
  | _ => none

/-- Regex `^(\d{1,2}):00$`, returning the captured hour. -/
def matchSimpleHourFormat (s : List Char) : Option ℕ :=
  match s with
  | [a, ':', '0', '0'] => if a.isDigit then some (digitVal a) else none
  | [a, b, ':', '0', '0'] =>
    if a.isDigit && b.isDigit then some (10 * digitVal a + digitVal b) else none
  | _ => none

/-- The if/else-if chain of lines 94-100: first matching pattern wins.
`none` stands for the `hour === -1` sentinel state (a matched hour is
a parsed digit group and can never itself be -1). -/
def firstMatchedHour (s : List Char) : Option ℕ :=
  match matchStandardFormat s with
  | some h => some h
  | none =>
    match matchDashFormat s with
    | some h => some h
    | none => matchSimpleHourFormat s

/-- excelProcessor.ts `extractHourFromTimeSlot`: extract the leading
hour of a time-slot token; hours 24-26 are reduced modulo 24; -1 when
nothing matches. -/
def extractHourFromTimeSlot (timeSlot : String) : ℤ :=
  if timeSlot = "" then -1 else
  match firstMatchedHour timeSlot.toList with
  | none => -1
  | some h =>
    if 24 ≤ (h : ℤ) ∧ (h : ℤ) ≤ 26 then (h : ℤ) % 24 else (h : ℤ)

/-! ## processViewerData (excelProcessor.ts lines 122-488) -/

/-- Lines 30-75 `getAgeGroupDistributionForHour`: the simulated
time-of-day distribution. -/
def getAgeGroupDistributionForHour (hour : ℤ) : ℚ × ℚ × ℚ :=
  if 6 ≤ hour ∧ hour < 12 then (40/100, 35/100, 25/100)
  else if 12 ≤ hour ∧ hour < 18 then (55/100, 30/100, 15/100)
  else if 18 ≤ hour ∧ hour < 22 then (45/100, 35/100, 20/100)
  else if 22 ≤ hour ∨ hour < 2 then (65/100, 25/100, 10/100)
  else (35/100, 40/100, 25/100)

/-- Lines 126-132: the header row test — first three cells are the
literal markers. -/
def isHeaderRow (row : Row) : Bool :=
  2 < row.length && getCell row 0 == Cell.str "Datum" &&
    getCell row 1 == Cell.str "Dag" && getCell row 2 == Cell.str "Tijdvak"

/-- Lines 154-182: scan the header row for the three named columns;
each assignment overwrites, so the LAST matching column index wins.
Components: (totalViewers, kijkcijfers, percentage) indices, -1 when
not found. -/
def scanHeaderColumns (header : Row) : ℤ × ℤ × ℤ :=
  (header.enum.foldl
    (fun acc p =>
      match p.2 with
      | Cell.str h =>
        let t := if strIncludes h "Dagcijfers" || strIncludes h "kijkdichtheid per dag" ||
                    strIncludes h "dagcijfers" || strIncludes h "Kijkers per dag"
                 then (p.1 : ℤ) else acc.1
        let k := if strIncludes h "Kijkcijfers per programma" || strIncludes h "kijkcijfers per programma" ||
                    strIncludes h "Kijkcijfer per uur" || strIncludes h "kijkcijfer per uur"
                 then (p.1 : ℤ) else acc.2.1
        let c := if h == "TOTAL" || h == "Total" || h == "Totaal" || strIncludes h "percentage"
                 then (p.1 : ℤ) else acc.2.2
        (t, k, c)
      | _ => acc)
    (-1, -1, -1))

/-- Lines 187-197 / 199-209: positional fallback — first candidate
position inside the header row wins. -/
def firstInBounds (cands : List ℕ) (len : ℕ) : Option ℕ :=
  cands.find? (fun p => p < len)

/-- Column resolution for a found header row: named match, then
positional candidates, then the fixed fallbacks 4 and 6
(lines 148-220).  Returns (totalViewersColumnIndex,
percentageColumnIndex, kijkcijfersColumnIndex); the first two are
always resolved to a natural index, the third keeps its -1 sentinel
as `none`. -/
def resolveColumns (header : Row) : ℕ × ℕ × Option ℕ :=
  let s := scanHeaderColumns header
  let t := if s.1 = -1 then
      match firstInBounds [3, 4, 5, 6] header.length with
      | some p => p
      | none => 4
    else s.1.toNat
  let c := if s.2.2 = -1 then
      match firstInBounds [4, 5, 6, 7] header.length with
      | some p => p
      | none => 6
    else s.2.2.toNat
  let k := if s.2.1 = -1 then none else some s.2.1.toNat
  (t, c, k)

/-- A fresh `DailyData` as created at lines 280-287. -/
def newDay (dateString dayOfWeek : String) (totalDailyViewers : ℚ) : DailyData :=
  { date := dateString
    dayOfWeek := dayOfWeek
    totalViewers := totalDailyViewers
    hourlyViewers := List.replicate 24 0
    hourlyPercentages := List.replicate 24 0 }

/-- The per-row parse of lines 246-300: all `continue` guards, the
percentage normalization, the hour extraction, the date string and the
computed hourly viewer figure.  `none` models a skipped row.  Fields:
(dateString, dayOfWeek, hour, hourlyViewers, totalViewerPercent,
totalDailyViewers). -/
def rowParse (tc pc : ℕ) (kc : Option ℕ) (row : Row) :
    Option (String × String × ℤ × ℚ × ℚ × ℚ) :=
  if row.length < max tc pc + 1 then none else
  let excelDate := getCell row 0
  let dayOfWeek := cellToStrOrEmpty (getCell row 1)
  let timeSlot := cellToStrOrEmpty (getCell row 2)
  if ¬ cellTruthy excelDate ∨ timeSlot = "" then none else
  let pct0 := jsNumOr0 (getCell row pc)
  let totalViewerPercent := if 1 < pct0 then pct0 / 100 else pct0
  let totalDailyViewers := jsNumOr0 (getCell row tc)
  let hour := extractHourFromTimeSlot timeSlot
  if hour = -1 then none else
  let dateString := match excelDate with
    | Cell.num q => excelDateToString q
    | c => cellToStrOrEmpty c
  if dateString = "" then none else
  let hvPre : ℚ := match kc with
    | some k => if getCell row k ≠ Cell.empty then jsNumber (getCell row k) else 0
    | none => 0
  let hourlyViewers :=
    if hvPre = 0 ∧ 0 < totalDailyViewers ∧ 0 < totalViewerPercent then
      (jround (totalViewerPercent * totalDailyViewers) : ℚ)
    else hvPre
  some (dateString, dayOfWeek, hour, hourlyViewers, totalViewerPercent, totalDailyViewers)

/-- One iteration of the data-row loop (lines 246-329): parse the row,
get-or-create the day, write the hour slot (last write wins) and the
simulated age groups. -/
def processRow (tc pc : ℕ) (kc : Option ℕ) (m : List (String × DailyData)) (row : Row) :
    List (String × DailyData) :=
  match rowParse tc pc kc row with
  | none => m
  | some (dateString, dayOfWeek, hour, hourlyViewers, totalViewerPercent, totalDailyViewers) =>
    let m1 := if (mapGet? m dateString).isNone
      then upsert m dateString (newDay dateString dayOfWeek totalDailyViewers)
      else m
    let day := (mapGet? m1 dateString).getD (newDay dateString dayOfWeek totalDailyViewers)
    let h := hour.toNat
    let day := { day with
      hourlyViewers := day.hourlyViewers.set h hourlyViewers
      hourlyPercentages := day.hourlyPercentages.set h totalViewerPercent }
    let ag := day.ageGroups.getD (List.replicate 24 ⟨0, 0, 0⟩)
    let dist := getAgeGroupDistributionForHour hour
    let ag2 := if h < ag.length ∧ 0 < hourlyViewers then
        ag.set h ⟨(jround (hourlyViewers * dist.1) : ℚ),
                  (jround (hourlyViewers * dist.2.1) : ℚ),
                  (jround (hourlyViewers * dist.2.2) : ℚ)⟩
      else ag
    upsert m1 dateString { day with ageGroups := some ag2 }

/-- Lines 332-344: surviving days — positive total viewers, sorted by
canonical date. -/
def finalizeDays (m : List (String × DailyData)) : List DailyData :=
  sortByCmp (fun a b => dateCompare a.date b.date)
    ((m.map Prod.snd).filter (fun d => decide (0 < d.totalViewers)))

/-- The three per-hour accumulator arrays of lines 354-356. -/
structure HourAccum where
  avgAcc : List ℚ
  maxs : List ℚ
  totals : List ℚ
deriving DecidableEq, Inhabited

/-- `vals.forEach((v, h) => acc[h] += v)` starting at index `i`. -/
def bumpHours (acc : List ℚ) : List ℚ → ℕ → List ℚ
  | [], _ => acc
  | v :: vs, i => bumpHours (acc.set i (acc.getD i 0 + v)) vs (i + 1)

/-- `vals.forEach((v, h) => acc[h] = Math.max(acc[h], v))`. -/
def bumpMax (acc : List ℚ) : List ℚ → ℕ → List ℚ
  | [], _ => acc
  | v :: vs, i => bumpMax (acc.set i (max (acc.getD i 0) v)) vs (i + 1)

/-- One day of the accumulation loop at lines 358-364 (the single
forEach writes the three independent arrays; they are accumulated
separately here, one `bump` per array). -/
def accumDay (s : HourAccum) (d : DailyData) : HourAccum :=
  { avgAcc := bumpHours s.avgAcc d.hourlyViewers 0
    maxs := bumpMax s.maxs d.hourlyViewers 0
    totals := bumpHours s.totals d.hourlyViewers 0 }

def hourAccumInit : HourAccum :=
  ⟨List.replicate 24 0, List.replicate 24 0, List.replicate 24 0⟩

/-- Lines 366-371: divide the accumulated sums by the day count and
round, when there is at least one day.  The accumulator array always
has exactly 24 slots, so the `for i < 24` loop is a map. -/
def roundedAverages (acc : List ℚ) (len : ℕ) : List ℚ :=
  if 0 < len then acc.map (fun v => (jround (v / (len : ℚ)) : ℚ)) else acc

/-- `Math.max(...l)` for the non-empty argument lists used here (the
empty case would be -Infinity and is unreachable: the array always has
24 entries). -/
def listMax : List ℚ → ℚ
  | [] => 0
  | x :: xs => xs.foldl max x

/-- Lines 387-389: all hour indices achieving the maximum cumulative
value, via the -1 map-and-filter idiom of the source. -/
def tiedPeakIndices (totals : List ℚ) : List ℤ :=
  ((totals.enum.map (fun p => if p.2 = listMax totals then (p.1 : ℤ) else -1)).filter
    (fun x => x != -1))

/-- Line 404: the tied hours lying in the evening range [18, 23]. -/
def eveningTies (totals : List ℚ) : List ℤ :=
  (tiedPeakIndices totals).filter (fun h => decide (18 ≤ h) && decide (h ≤ 23))

/-- Lines 400-415: the latest tied evening hour when one exists, else
the latest tied hour, else the 0 seed. -/
def rawPeakIndex (totals : List ℚ) : ℤ :=
  if 0 < (tiedPeakIndices totals).length then
    if 0 < (eveningTies totals).length then ((eveningTies totals).getLast?).getD 0
    else ((tiedPeakIndices totals).getLast?).getD 0
  else 0

/-- Lines 399-423: peak-hour selection — prefer the latest tied
evening hour (18-23), otherwise the latest tied hour, then the
range-validity clamp of line 423. -/
def selectPeakHour (totals : List ℚ) : ℤ :=
  if 0 ≤ rawPeakIndex totals ∧ rawPeakIndex totals < 24 then rawPeakIndex totals else 0

/-- Lines 373-377: the day with the most viewers (first win on ties),
via `reduce` from a `{totalViewers: 0, date: ''}` seed; `Geen data`
when there are no days. -/
def peakDayOf (days : List DailyData) : String :=
  if 0 < days.length then
    (days.foldl (fun mx d => if mx.2 < d.totalViewers then (d.date, d.totalViewers) else mx)
      ("", (0 : ℚ))).1
  else "Geen data"

def addAge (a b : AgeGroupData) : AgeGroupData :=
  ⟨a.viewers13Plus + b.viewers13Plus, a.viewers50Plus + b.viewers50Plus,
   a.viewers65Plus + b.viewers65Plus⟩

def scaleAge (w : ℚ) (a : AgeGroupData) : AgeGroupData :=
  ⟨a.viewers13Plus * w, a.viewers50Plus * w, a.viewers65Plus * w⟩

/-- `vals.forEach((hourData, h) => acc[h] += hourData * w)`. -/
def bumpAges (w : ℚ) (acc : List AgeGroupData) : List AgeGroupData → ℕ → List AgeGroupData
  | [], _ => acc
  | v :: vs, i => bumpAges w (acc.set i (addAge (acc.getD i ⟨0, 0, 0⟩) (scaleAge w v))) vs (i + 1)

def roundAge (len : ℚ) (a : AgeGroupData) : AgeGroupData :=
  ⟨(jround (a.viewers13Plus / len) : ℚ), (jround (a.viewers50Plus / len) : ℚ),
   (jround (a.viewers65Plus / len) : ℚ)⟩

/-- Lines 436-474: per-hour age-group totals and averages over the
month (the two accumulators receive identical sums; the averages are
divided by the day count at the end).  Returns (totals, averages). -/
def summarizeAgeGroups (days : List DailyData) : List AgeGroupData × List AgeGroupData :=
  let zero : List AgeGroupData := List.replicate 24 ⟨0, 0, 0⟩
  let tot := days.foldl
    (fun acc d => match d.ageGroups with
      | some ags => bumpAges 1 acc ags 0
      | none => acc) zero
  let avg := if 0 < days.length then tot.map (roundAge days.length) else tot
  (tot, avg)

/-- Lines 353-487: build the month summary from the finalized day
list. -/
def summarizeMonth (monthYear : String) (days : List DailyData) : ProcessedMonthData :=
  let acc := days.foldl accumDay hourAccumInit
  let ages := summarizeAgeGroups days
  { monthYear := monthYear
    days := days
    averageHourlyViewers := roundedAverages acc.avgAcc days.length
    maxViewersPerHour := acc.maxs
    totalViewersPerHour := acc.totals
    averageAgeGroups := some ages.2
    totalAgeGroups := some ages.1
    peakDay := peakDayOf days
    peakHour := selectPeakHour acc.totals
    totalViewers := days.foldl (fun s d => s + d.totalViewers) 0 }

/-- excelProcessor.ts `processViewerData` (lines 122-488): find the
header row, resolve the data columns, run the row loop, finalize the
day list and build the summary.  The thrown error is an `Except`
failure. -/
def processViewerData (data : Grid) (monthYear : String) : Except String ProcessedMonthData :=
  match data.findIdx? isHeaderRow with
  | none => Except.error "Could not find header row in Excel file"
  | some headerRowIndex =>
    let header := data.getD headerRowIndex []
    let cols := resolveColumns header
    let rows := data.drop (headerRowIndex + 1)
    let m := rows.foldl (processRow cols.1 cols.2.1 cols.2.2) []
    Except.ok (summarizeMonth monthYear (finalizeDays m))

/-! ## aggregateMonthsData (dataAggregator.ts lines 13-210) -/

/-- Lines 26-49: the union of all days across the inputs, one map
entry per canonical date, last source winning, then sorted by date. -/
def unionDays (monthsData : List ProcessedMonthData) : List (String × DailyData) :=
  monthsData.foldl
    (fun acc md => md.days.foldl (fun a d => upsert a d.date d) acc)
    ([] : List (String × DailyData))

def allDaysOf (monthsData : List ProcessedMonthData) : List DailyData :=
  sortByCmp (fun a b => dateCompare a.date b.date) ((unionDays monthsData).map Prod.snd)

/-- The multi-month body of `aggregateMonthsData` (lines 23-209). -/
def aggregateMulti (monthsData : List ProcessedMonthData) : ProcessedMonthData :=
    let allDays := allDaysOf monthsData
    let acc := allDays.foldl accumDay hourAccumInit
    let peakDay := (allDays.foldl
      (fun mx d => if mx.2 < d.totalViewers then (d.date, d.totalViewers) else mx)
      ("", (0 : ℚ))).1
    let totalViewers := allDays.foldl (fun s d => s + d.totalViewers) 0
    let firstMonthYear := (monthsData.head?.map ProcessedMonthData.monthYear).getD ""
    let lastMonthYear := (monthsData.getLast?.map ProcessedMonthData.monthYear).getD ""
    let timespan := if 1 < monthsData.length then firstMonthYear ++ " - " ++ lastMonthYear
      else firstMonthYear
    let zeroAges : List AgeGroupData := List.replicate 24 ⟨0, 0, 0⟩
    let ageFold := monthsData.foldl
      (fun (st : Bool × List AgeGroupData × List AgeGroupData) md =>
        let st1 := match md.totalAgeGroups with
          | some t => (true, bumpAges 1 st.2.1 t 0, st.2.2)
          | none => st
        match md.averageAgeGroups with
          | some a => (true, st1.2.1, bumpAges (md.days.length : ℚ) st1.2.2 a 0)
          | none => st1)
      (false, zeroAges, zeroAges)
    let hasAgeData := ageFold.1
    let totalAgeGroups := ageFold.2.1
    let averageAgeGroups := if hasAgeData ∧ 0 < allDays.length then
        ageFold.2.2.map (roundAge allDays.length)
      else ageFold.2.2
    { monthYear := "Samenvatting (" ++ timespan ++ ")"
      days := allDays
      averageHourlyViewers := roundedAverages acc.avgAcc allDays.length
      maxViewersPerHour := acc.maxs
      totalViewersPerHour := acc.totals
      averageAgeGroups := if hasAgeData then some averageAgeGroups else none
      totalAgeGroups := if hasAgeData then some totalAgeGroups else none
      peakDay := peakDay
      peakHour := selectPeakHour acc.totals
      totalViewers := totalViewers }

/-- dataAggregator.ts `aggregateMonthsData`: error on an empty list,
identity on a singleton, otherwise re-aggregate the union of all days
(last source wins on duplicate dates). -/
def aggregateMonthsData (monthsData : List ProcessedMonthData) :
    Except String ProcessedMonthData :=
  match monthsData with
  | [] => Except.error "No data provided for aggregation"
  | [m] => Except.ok m
  | _ => Except.ok (aggregateMulti monthsData)

/-! ## calculateEndTimes (csvProcessor.ts lines 764-877) -/

/-- `time.split(':').map(Number)` for the canonical `HH:MM` strings
used at these sites; a malformed component (NaN in JS) reads as 0
(no claim feeds malformed times here). -/
def parseHM (t : String) : ℤ × ℤ :=
  match t.splitOn ":" with
  | a :: b :: _ => (((strToNumOpt a).getD 0).num, ((strToNumOpt b).getD 0).num)
  | [a] => (((strToNumOpt a).getD 0).num, 0)
  | [] => (0, 0)

/-- `${h.pad2}:${m.pad2}`. -/
def fmtHM (h m : ℤ) : String := pad2 h ++ ":" ++ pad2 m

/-- JS truthiness of an optional number (`undefined` and `0` falsy). -/
def numTruthy : Option ℤ → Bool
  | some n => n ≠ 0
  | none => false

/-- JS truthiness of an optional string (`undefined` and `""` falsy). -/
def strOptTruthy : Option String → Bool
  | some s => s ≠ ""
  | none => false

/-- The `${week || 0}-${time}` grouping key of lines 770-779. -/
def weekTimeKey (p : ProgramData) : ℤ × String := ((p.week.getD 0), p.startTime)

/-- Lines 766-791: sequence numbers and notes for programs sharing a
(week, startTime) slot.  A program's sequence is its 1-based rank
among same-key programs in list order; groups of size 1 are left
untouched. -/
def assignSequences (programs : List ProgramData) : List ProgramData :=
  programs.enum.map (fun p =>
    let k := weekTimeKey p.2
    let groupSize := (programs.filter (fun q => weekTimeKey q = k)).length
    if 1 < groupSize then
      let idx := ((programs.take p.1).filter (fun q => weekTimeKey q = k)).length
      let base := match p.2.notes with
        | none => ""
        | some s => s
      let notes1 := if base = "" then base else base ++ ", "
      { p.2 with
        sequence := some ((idx : ℤ) + 1)
        notes := some (notes1 ++ "Multiple programs (" ++ toString (idx + 1) ++ "/" ++
          toString groupSize ++ ")") }
    else p.2)

/-- Character-wise comparison standing in for `localeCompare` on the
canonical `HH:MM` strings (digits and a colon collate identically). -/
def cmpChars : List Char → List Char → ℤ
  | [], [] => 0
  | [], _ :: _ => -1
  | _ :: _, [] => 1
  | a :: as, b :: bs =>
    if a.toNat < b.toNat then -1 else if b.toNat < a.toNat then 1 else cmpChars as bs

def localeCmp (a b : String) : ℤ := cmpChars a.toList b.toList

/-- The comparator of lines 794-806: week, then start time, then
sequence. -/
def programCmp (a b : ProgramData) : ℤ :=
  let weekA := a.week.getD 0
  let weekB := b.week.getD 0
  if weekA ≠ weekB then weekA - weekB else
  let t := localeCmp a.startTime b.startTime
  if t ≠ 0 then t else (a.sequence.getD 0) - (b.sequence.getD 0)

def sortPrograms (l : List ProgramData) : List ProgramData := sortByCmp programCmp l

/-- The multi-program-slot test of lines 814-817 (`===` on possibly
undefined `week`/`sequence` fields). -/
def isSibling (p q : ProgramData) : Bool :=
  numTruthy p.sequence && p.startTime == q.startTime &&
    (match p.sequence, q.sequence with
     | some s, some t => s + 1 == t
     | _, _ => false) && p.week == q.week

/-- Lines 818-833: the same-slot branch — default 15-minute duration
and an end time derived from it, when no duration is present. -/
def siblingFill (p : ProgramData) : ProgramData :=
  if numTruthy p.duration then p else
  let hm := parseHM p.startTime
  let em0 := hm.2 + 15
  let eh := if 60 ≤ em0 then (hm.1 + em0 / 60) % 24 else hm.1
  let em := if 60 ≤ em0 then em0 % 60 else em0
  { p with duration := some 15, endTime := some (fmtHM eh em) }

/-- Lines 834-852: the normal branch — end at the next program's
start, deriving the duration (with midnight rollover) when absent. -/
def normalFill (p q : ProgramData) : ProgramData :=
  let p1 := { p with endTime := some q.startTime }
  if ¬ numTruthy p1.duration ∧ p1.startTime ≠ "" ∧ q.startTime ≠ "" then
    let s := parseHM p1.startTime
    let e := parseHM q.startTime
    let dm := (e.1 - s.1) * 60 + (e.2 - s.2)
    { p1 with duration := some (if dm < 0 then dm + 24 * 60 else dm) }
  else p1

def fillStep (p q : ProgramData) : ProgramData :=
  if isSibling p q then siblingFill p else normalFill p q

/-- The loop of lines 809-853: every program except the last is filled
against its successor (the successor is only read, never written, so
the loop is a pairwise map). -/
def fillEndTimes : List ProgramData → List ProgramData
  | [] => []
  | p :: rest =>
    match rest with
    | [] => [p]
    | q :: _ => fillStep p q :: fillEndTimes rest

/-- Lines 858-866: end time computed from the start time plus the
program's duration (minutes), hours wrapping modulo 24. -/
def endTimeFromDuration (p : ProgramData) : String :=
  let hm := parseHM p.startTime
  let em0 := hm.2 + (p.duration.getD 0)
  fmtHM ((hm.1 + em0 / 60) % 24) (em0 % 60)

/-- Lines 871-874: the default end time one hour after the start. -/
def defaultHourLater (p : ProgramData) : String :=
  let hm := parseHM p.startTime
  fmtHM ((hm.1 + 1) % 24) hm.2

/-- Lines 855-876: the last program of a day — end time from its
duration when it has one and no end time yet; otherwise the 60-minute
default. -/
def lastFix (p : ProgramData) : ProgramData :=
  if numTruthy p.duration ∧ p.endTime = none then
    { p with endTime := some (endTimeFromDuration p) }
  else if ¬ numTruthy p.duration ∧ p.endTime = none then
    { p with duration := some 60, endTime := some (defaultHourLater p) }
  else p

def updateLast (f : α → α) : List α → List α
  | [] => []
  | [x] => [f x]
  | x :: y :: rest => x :: updateLast f (y :: rest)

/-- The whole per-day pass of `calculateEndTimes`. -/
def calculateEndTimesForDay (programs : List ProgramData) : List ProgramData :=
  updateLast lastFix (fillEndTimes (sortPrograms (assignSequences programs)))

/-- csvProcessor.ts `calculateEndTimes`: run the per-day pass on every
entry of the schedule's day map. -/
def calculateEndTimes (data : ScheduleData) : ScheduleData :=
  { data with days := data.days.map (fun p => (p.1, calculateEndTimesForDay p.2)) }

/-! ## Persistence (saveProgramData / loadProgramData) -/

/-- The serializable shape built at lines 57-65 of the persistence
module: week number, year, and the day map as an explicit keyed
collection (`Record<string, ProgramData[]>`).  A JS object with the
non-integer-like `DD-MM-YYYY` keys used here keeps insertion order,
so it is the same association-list type; `JSON.stringify`/`parse` of
this plain data is the identity on it. -/
structure StoredSchedule where
  weekNumber : ℚ
  year : ℚ
  days : List (String × List ProgramData)
deriving DecidableEq, Inhabited

/-- The browser `localStorage` slots the module touches. -/
structure Store where
  viewerData : Option (List ProcessedMonthData) := none
  programData : Option StoredSchedule := none
deriving DecidableEq, Inhabited

/-- `Array.from(map.entries()).reduce((obj, [k, v]) => { obj[k] = v; … }, {})`:
property assignment updates an existing key in place and appends a new
one. -/
def objFromEntries (entries : List (String × List ProgramData)) :
    List (String × List ProgramData) :=
  entries.foldl (fun obj p => upsert obj p.1 p.2) []

/-- `saveProgramData`: serialize the schedule into the program-data
slot. -/
def saveProgramData (data : ScheduleData) (st : Store) : Store :=
  let stored : StoredSchedule :=
    { weekNumber := data.weekNumber
      year := data.year
      days := objFromEntries data.days }
  { st with programData := some stored }

/-- `loadProgramData`: read the slot back, rebuilding the `Map` from
`Object.entries` (null when nothing is stored). -/
def loadProgramData (st : Store) : Option ScheduleData :=
  match st.programData with
  | none => none
  | some parsed => some
      { weekNumber := parsed.weekNumber
        year := parsed.year
        days := parsed.days }

/-- Concrete grid for the witnesses: one header row and two data rows
for the same day plus one for a second day. -/
def wHdr : Row := [Cell.str "Datum", Cell.str "Dag", Cell.str "Tijdvak", Cell.empty,
  Cell.str "Dagcijfers", Cell.empty, Cell.str "TOTAL"]

def wRow1 : Row := [Cell.str "05-01-2024", Cell.str "Vr", Cell.str "20:00-20:59", Cell.empty,
  Cell.num 1000, Cell.empty, Cell.num (5/2)]

def wRow2 : Row := [Cell.str "05-01-2024", Cell.str "Vr", Cell.str "20:00-20:59", Cell.empty,
  Cell.num 1000, Cell.empty, Cell.num 4]

def wRow3 : Row := [Cell.str "06-01-2024", Cell.str "Za", Cell.str "21:00-21:59", Cell.empty,
  Cell.num 500, Cell.empty, Cell.num 10]

def wGrid : Grid := [wHdr, wRow1, wRow2, wRow3]

def wMonth : ProcessedMonthData := (processViewerData wGrid "Januari 2024").toOption.getD default

/-! ## Claim C9 -/

/-- Two concrete one-day summaries used by the C9 and C3 material. -/
def wDay1 : DailyData :=
  { date := "05-01-2024", totalViewers := 100,
    hourlyViewers := (List.range 24).map (fun i => (i : ℚ)),
    hourlyPercentages := List.replicate 24 0 }

def wDay2 : DailyData :=
  { date := "06-01-2024", totalViewers := 200,
    hourlyViewers := (List.range 24).map (fun i => (2 * i : ℚ)),
    hourlyPercentages := List.replicate 24 0 }

def wSum1 : ProcessedMonthData := summarizeMonth "A" [wDay1]

def wSum2 : ProcessedMonthData := summarizeMonth "B" [wDay2]

/-! ## Claim C5 -/

/-- A grid with a valid header row whose only data row builds a day
with zero total viewers, which the finalization drops. -/
def c5Grid : Grid := [wHdr,
  [Cell.str "07-01-2024", Cell.str "Zo", Cell.str "20:00-20:59", Cell.empty,
   Cell.num 0, Cell.empty, Cell.num 5]]

/-! ## Claim C2 infrastructure -/

/-- `tiedPeakIndices` generalized over the enumeration start, for
induction. -/
def tiedsFrom (n : ℕ) (l : List ℚ) (M : ℚ) : List ℤ :=
  ((List.enumFrom n l).map (fun p => if p.2 = M then (p.1 : ℤ) else -1)).filter
    (fun x => x != -1)

/-! ## Claim C2 -/

/-- A day with a three-way tie of 100 viewers at hours 11, 20 and 22. -/
def c2Day : DailyData :=
  { date := "05-01-2024", totalViewers := 300,
    hourlyViewers := (List.range 24).map
      (fun i => if i = 11 ∨ i = 20 ∨ i = 22 then (100 : ℚ) else 0),
    hourlyPercentages := List.replicate 24 0 }

/-- The day-map invariant: every stored day has exactly 24 hour
slots. -/
def DayMapWF (m : List (String × DailyData)) : Prop :=
  ∀ p ∈ m, p.2.hourlyViewers.length = 24 ∧ p.2.hourlyPercentages.length = 24

def c7P1 : ProgramData := { title := "A", startTime := "20:00" }

def c7P2 : ProgramData := { title := "B", startTime := "20:30" }

def c7P3 : ProgramData := { title := "C", startTime := "21:15" }

def c8Schedule : ScheduleData :=
  { weekNumber := 7, year := 2024,
    days := [("05-01-2024", [c7P1]), ("06-01-2024", [c7P2, c7P3])],
    programs := some [c7P1, c7P2, c7P3], weeks := some [7] }

theorem insertLe_perm (le : α → Bool) (x : α) :
    ∀ l : List α, (insertLe le x l).Perm (x :: l) := by
  intro l
  induction l with
  | nil => simp [insertLe]
  | cons y ys ih =>
    by_cases h : le y
    · simpa [insertLe, h] using ((ih.cons y).trans (List.Perm.swap x y ys))
    · simp [insertLe, h]

theorem sortByCmp_foldl_perm (cmp : α → α → ℤ) :
    ∀ (l acc : List α),
      (l.foldl (fun acc x => insertLe (fun y => cmp y x ≤ 0) x acc) acc).Perm
        (acc ++ l) := by
  intro l
  induction l with
  | nil => simp
  | cons x xs ih =>
    intro acc
    have h1 := ih (insertLe (fun y => cmp y x ≤ 0) x acc)
    have h2 : (insertLe (fun y => cmp y x ≤ 0) x acc ++ xs).Perm (acc ++ x :: xs) := by
      have := (insertLe_perm (fun y => cmp y x ≤ 0) x acc).append_right xs
      exact this.trans (List.perm_middle.symm)
    simpa [List.foldl_cons] using h1.trans h2

theorem sortByCmp_perm (cmp : α → α → ℤ) (l : List α) :
    (sortByCmp cmp l).Perm l := by
  simpa [sortByCmp] using sortByCmp_foldl_perm cmp l []

theorem sortByCmp_length (cmp : α → α → ℤ) (l : List α) :
    (sortByCmp cmp l).length = l.length :=
  (sortByCmp_perm cmp l).length_eq

theorem mapGet?_upsert_self (m : List (String × α)) (k : String) (v : α) :
    mapGet? (upsert m k v) k = some v := by
  induction m with
  | nil => simp [upsert, mapGet?]
  | cons p rest ih =>
    by_cases h : p.1 = k
    · simp [upsert, h, mapGet?]
    · simp [upsert, h, mapGet?, ih]

/-! ## Lemma layer: the per-hour accumulation computes pointwise sums -/

theorem bumpHours_length (vals : List ℚ) :
    ∀ (acc : List ℚ) (i : ℕ), (bumpHours acc vals i).length = acc.length := by
  induction vals with
  | nil => intro acc i; simp [bumpHours]
  | cons v vs ih =>
    intro acc i
    simp [bumpHours, ih]

theorem bumpHours_getD (vals : List ℚ) :
    ∀ (acc : List ℚ) (i h : ℕ), h < acc.length →
      (bumpHours acc vals i).getD h 0 =
        acc.getD h 0 + (if i ≤ h then vals.getD (h - i) 0 else 0) := by
  induction vals with
  | nil =>
    intro acc i h hh
    simp [bumpHours]
  | cons v vs ih =>
    intro acc i h hh
    have hlen : h < (acc.set i (acc.getD i 0 + v)).length := by simpa using hh
    rw [bumpHours, ih _ _ _ hlen]
    rcases lt_trichotomy h i with hlt | heq | hgt
    · have h1 : ¬ i ≤ h := by omega
      have h2 : ¬ i + 1 ≤ h := by omega
      simp [List.getD, List.getElem?_set_ne (by omega : i ≠ h), h1, h2]
    · subst heq
      have h2 : ¬ h + 1 ≤ h := by omega
      simp [List.getD, List.getElem?_set_self, hh, h2]
    · have h1 : i ≤ h := by omega
      have h2 : i + 1 ≤ h := by omega
      obtain ⟨k, hk⟩ : ∃ k, h - i = k + 1 := ⟨h - i - 1, by omega⟩
      have hk2 : h - (i + 1) = k := by omega
      simp [List.getD, List.getElem?_set_ne (by omega : i ≠ h), h1, h2, hk, hk2]

/-- The `.totals` component of the day fold is the plain per-day
`bumpHours` fold. -/
theorem foldl_accumDay_totals (days : List DailyData) :
    ∀ s : HourAccum, (days.foldl accumDay s).totals =
      days.foldl (fun t d => bumpHours t d.hourlyViewers 0) s.totals := by
  induction days with
  | nil => intro s; rfl
  | cons d ds ih => intro s; simpa [accumDay] using ih (accumDay s d)

/-- Likewise for the average accumulator. -/
theorem foldl_accumDay_avgAcc (days : List DailyData) :
    ∀ s : HourAccum, (days.foldl accumDay s).avgAcc =
      days.foldl (fun t d => bumpHours t d.hourlyViewers 0) s.avgAcc := by
  induction days with
  | nil => intro s; rfl
  | cons d ds ih => intro s; simpa [accumDay] using ih (accumDay s d)

theorem foldl_bumpHours_length (days : List DailyData) :
    ∀ t : List ℚ, (days.foldl (fun t d => bumpHours t d.hourlyViewers 0) t).length = t.length := by
  induction days with
  | nil => intro t; rfl
  | cons d ds ih =>
    intro t
    rw [List.foldl_cons, ih, bumpHours_length]

theorem foldl_bumpHours_getD (days : List DailyData) :
    ∀ (t : List ℚ) (h : ℕ), h < t.length →
      (days.foldl (fun t d => bumpHours t d.hourlyViewers 0) t).getD h 0 =
        t.getD h 0 + (days.map (fun d => d.hourlyViewers.getD h 0)).sum := by
  induction days with
  | nil => intro t h hh; simp
  | cons d ds ih =>
    intro t h hh
    have hlen : h < (bumpHours t d.hourlyViewers 0).length := by
      rw [bumpHours_length]; exact hh
    rw [List.foldl_cons, ih _ _ hlen, bumpHours_getD _ _ _ _ hh]
    simp [add_assoc]

theorem foldl_totalViewers (days : List DailyData) :
    ∀ a : ℚ, days.foldl (fun s d => s + d.totalViewers) a =
      a + (days.map DailyData.totalViewers).sum := by
  induction days with
  | nil => intro a; simp
  | cons d ds ih => intro a; rw [List.foldl_cons, ih]; simp [add_assoc]

theorem getD_replicate_zero (n h : ℕ) : (List.replicate n (0 : ℚ)).getD h 0 = 0 := by
  rcases Nat.lt_or_ge h n with hlt | hge
  · simp [List.getD, List.getElem?_replicate, hlt]
  · have : (List.replicate n (0 : ℚ)).length ≤ h := by simpa using hge
    simp [List.getD, List.getElem?_eq_none this]

/-- The two C1 invariants, for an arbitrary finalized day list: the
grand total and each hourly cumulative total are the respective sums
over the day list. -/
theorem summary_sums (days : List DailyData) :
    days.foldl (fun s d => s + d.totalViewers) 0 = (days.map DailyData.totalViewers).sum ∧
    ∀ h : ℕ, h < 24 →
      (days.foldl accumDay hourAccumInit).totals.getD h 0 =
        (days.map (fun d => d.hourlyViewers.getD h 0)).sum := by
  constructor
  · simpa using foldl_totalViewers days 0
  · intro h hh
    rw [foldl_accumDay_totals]
    have hlen : h < (hourAccumInit.totals).length := by
      show h < (List.replicate 24 (0 : ℚ)).length
      simpa using hh
    rw [foldl_bumpHours_getD _ _ _ hlen]
    have hz : (hourAccumInit.totals).getD h 0 = 0 := getD_replicate_zero 24 h
    rw [hz, zero_add]

/-! ## Projection lemmas -/

theorem summarizeMonth_days (L : String) (D : List DailyData) :
    (summarizeMonth L D).days = D := rfl

theorem summarizeMonth_totalViewers (L : String) (D : List DailyData) :
    (summarizeMonth L D).totalViewers = D.foldl (fun s d => s + d.totalViewers) 0 := rfl

theorem summarizeMonth_totalsPerHour (L : String) (D : List DailyData) :
    (summarizeMonth L D).totalViewersPerHour = (D.foldl accumDay hourAccumInit).totals := rfl

theorem summarizeMonth_averages (L : String) (D : List DailyData) :
    (summarizeMonth L D).averageHourlyViewers =
      roundedAverages (D.foldl accumDay hourAccumInit).avgAcc D.length := rfl

theorem summarizeMonth_peakHour (L : String) (D : List DailyData) :
    (summarizeMonth L D).peakHour = selectPeakHour (D.foldl accumDay hourAccumInit).totals := rfl

theorem aggregateMulti_days (ms : List ProcessedMonthData) :
    (aggregateMulti ms).days = allDaysOf ms := rfl

theorem aggregateMulti_totalViewers (ms : List ProcessedMonthData) :
    (aggregateMulti ms).totalViewers =
      (allDaysOf ms).foldl (fun s d => s + d.totalViewers) 0 := rfl

theorem aggregateMulti_totalsPerHour (ms : List ProcessedMonthData) :
    (aggregateMulti ms).totalViewersPerHour =
      ((allDaysOf ms).foldl accumDay hourAccumInit).totals := rfl

theorem aggregateMulti_averages (ms : List ProcessedMonthData) :
    (aggregateMulti ms).averageHourlyViewers =
      roundedAverages ((allDaysOf ms).foldl accumDay hourAccumInit).avgAcc
        (allDaysOf ms).length := rfl

theorem aggregateMulti_peakHour (ms : List ProcessedMonthData) :
    (aggregateMulti ms).peakHour =
      selectPeakHour ((allDaysOf ms).foldl accumDay hourAccumInit).totals := rfl

/-- Any successful `processViewerData` is a `summarizeMonth` of some
finalized day list. -/
theorem processViewerData_ok (data : Grid) (label : String) (r : ProcessedMonthData)
    (h : processViewerData data label = Except.ok r) :
    ∃ D : List DailyData, r = summarizeMonth label D := by
  unfold processViewerData at h
  split at h
  · exact absurd h (by simp)
  · simp only [Except.ok.injEq] at h
    exact ⟨_, h.symm⟩

/-- Any successful multi-input `aggregateMonthsData` is
`aggregateMulti` of the input list. -/
theorem aggregateMonthsData_ok (ms : List ProcessedMonthData) (r : ProcessedMonthData)
    (h2 : 2 ≤ ms.length) (h : aggregateMonthsData ms = Except.ok r) :
    r = aggregateMulti ms := by
  match ms, h2, h with
  | a :: b :: rest, _, h =>
    simp only [aggregateMonthsData, Except.ok.injEq] at h
    exact h.symm

/-! ## Claim C1 -/

/-- C1: every `PeriodSummary` produced by the month aggregation
(`processViewerData`) or by the multi-period aggregation
(`aggregateMonthsData`, on two or more inputs — the computing path)
satisfies `totalViewers = Σ days[i].totalViewers` and, for every hour
h < 24, `totalViewersPerHour[h] = Σ days[i].hourlyViewers[h]`. -/
theorem c1_summary_totals_invariant :
    (∀ (data : Grid) (label : String) (r : ProcessedMonthData),
        processViewerData data label = Except.ok r →
        r.totalViewers = (r.days.map DailyData.totalViewers).sum ∧
        ∀ h : ℕ, h < 24 →
          r.totalViewersPerHour.getD h 0 =
            (r.days.map (fun d => d.hourlyViewers.getD h 0)).sum) ∧
    (∀ (ms : List ProcessedMonthData) (r : ProcessedMonthData),
        2 ≤ ms.length → aggregateMonthsData ms = Except.ok r →
        r.totalViewers = (r.days.map DailyData.totalViewers).sum ∧
        ∀ h : ℕ, h < 24 →
          r.totalViewersPerHour.getD h 0 =
            (r.days.map (fun d => d.hourlyViewers.getD h 0)).sum) := by
  constructor
  · intro data label r h
    obtain ⟨D, rfl⟩ := processViewerData_ok data label r h
    rw [summarizeMonth_totalViewers, summarizeMonth_totalsPerHour, summarizeMonth_days]
    exact summary_sums D
  · intro ms r h2 h
    have hr := aggregateMonthsData_ok ms r h2 h
    subst hr
    rw [aggregateMulti_totalViewers, aggregateMulti_totalsPerHour, aggregateMulti_days]
    exact summary_sums (allDaysOf ms)

/-- Witness for C1 at the concrete grid `wGrid` and hour 20. -/
theorem c1_witness :
    processViewerData wGrid "Januari 2024" = Except.ok wMonth ∧
    wMonth.totalViewers = (wMonth.days.map DailyData.totalViewers).sum ∧
    wMonth.totalViewersPerHour.getD 20 0 =
      (wMonth.days.map (fun d => d.hourlyViewers.getD 20 0)).sum := by
  refine ⟨by rfl, ?_, ?_⟩
  · exact (c1_summary_totals_invariant.1 wGrid "Januari 2024" wMonth (by rfl)).1
  · exact (c1_summary_totals_invariant.1 wGrid "Januari 2024" wMonth (by rfl)).2 20 (by decide)

/-! ## Claim C10 -/

/-- C10: `aggregateMonthsData` on an empty input list throws
"No data provided for aggregation" instead of returning an empty
summary. -/
theorem c10_empty_input_throws :
    aggregateMonthsData [] = Except.error "No data provided for aggregation" := rfl

/-- C9 counterexample: aggregating two summaries labelled "A" and "B"
yields the label "Samenvatting (A - B)", not the claimed "A - B". -/
theorem c9_counterexample :
    (aggregateMonthsData [wSum1, wSum2]).map ProcessedMonthData.monthYear =
      Except.ok "Samenvatting (A - B)" ∧
    "Samenvatting (A - B)" ≠ "A - B" := ⟨by rfl, by decide⟩

/-- C9 (amended): for two or more inputs the combined label is
`"Samenvatting (<first label> - <last label>)"`; a single-element
input list is returned unchanged. -/
theorem c9_label_format :
    (∀ (ms : List ProcessedMonthData) (r : ProcessedMonthData),
        2 ≤ ms.length → aggregateMonthsData ms = Except.ok r →
        r.monthYear = "Samenvatting (" ++
          ((ms.head?.map ProcessedMonthData.monthYear).getD "") ++ " - " ++
          ((ms.getLast?.map ProcessedMonthData.monthYear).getD "") ++ ")") ∧
    (∀ m : ProcessedMonthData, aggregateMonthsData [m] = Except.ok m) := by
  constructor
  · intro ms r h2 h
    have hr := aggregateMonthsData_ok ms r h2 h
    subst hr
    show "Samenvatting (" ++ _ ++ ")" = _
    have hgt : 1 < ms.length := h2
    simp [hgt, String.append_assoc]
  · intro m; rfl

/-- Witness for C9 at the concrete summaries `wSum1`, `wSum2`. -/
theorem c9_witness :
    aggregateMonthsData [wSum1, wSum2] = Except.ok (aggregateMulti [wSum1, wSum2]) ∧
    (aggregateMulti [wSum1, wSum2]).monthYear = "Samenvatting (A - B)" ∧
    aggregateMonthsData [wSum1] = Except.ok wSum1 := by
  refine ⟨by rfl, ?_, c9_label_format.2 wSum1⟩
  have := c9_label_format.1 [wSum1, wSum2] (aggregateMulti [wSum1, wSum2]) (by decide) (by rfl)
  simpa using this

/-! ## Claim C4 -/

/-- C4 counterexample: the token "27:00" matches the `H:00` pattern
with hour 27, which is outside [0,26]; the parser returns 27 — not
the NOT_FOUND sentinel and not an hour in [0,23]. -/
theorem c4_counterexample :
    extractHourFromTimeSlot "27:00" = 27 ∧
    ¬ (extractHourFromTimeSlot "27:00" = -1 ∨
       (0 ≤ extractHourFromTimeSlot "27:00" ∧ extractHourFromTimeSlot "27:00" ≤ 23)) := by
  constructor
  · decide
  · decide

/-- C4 (amended): when a pattern matches with extracted leading hour
h, the parser returns h mod 24 for 24 ≤ h ≤ 26 (hence a value in
[0,2]) and h unchanged otherwise — including h ≥ 27, which is NOT
mapped to the NOT_FOUND sentinel; NOT_FOUND (-1) is returned exactly
when no pattern matches. -/
theorem c4_hour_normalization :
    (∀ (t : String) (h : ℕ), firstMatchedHour t.toList = some h → h ≤ 23 →
        extractHourFromTimeSlot t = h) ∧
    (∀ (t : String) (h : ℕ), firstMatchedHour t.toList = some h → 24 ≤ h → h ≤ 26 →
        extractHourFromTimeSlot t = (h : ℤ) - 24 ∧ extractHourFromTimeSlot t = (h : ℤ) % 24) ∧
    (∀ (t : String) (h : ℕ), firstMatchedHour t.toList = some h → 27 ≤ h →
        extractHourFromTimeSlot t = h) ∧
    (∀ t : String, firstMatchedHour t.toList = none →
        extractHourFromTimeSlot t = -1) := by
  have hne : ∀ (t : String) (h : ℕ), firstMatchedHour t.toList = some h → t ≠ "" := by
    intro t h hm ht
    subst ht
    simp [firstMatchedHour, matchStandardFormat, matchDashFormat,
      matchSimpleHourFormat] at hm
  have key : ∀ (t : String) (h : ℕ), firstMatchedHour t.toList = some h →
      extractHourFromTimeSlot t =
        (if 24 ≤ (h : ℤ) ∧ (h : ℤ) ≤ 26 then (h : ℤ) % 24 else (h : ℤ)) := by
    intro t h hm
    rw [extractHourFromTimeSlot, if_neg (hne t h hm)]
    rw [hm]
  refine ⟨?_, ?_, ?_, ?_⟩
  · intro t h hm hle
    have h24 : ¬ (24 ≤ (h : ℤ) ∧ (h : ℤ) ≤ 26) := by omega
    rw [key t h hm, if_neg h24]
  · intro t h hm h1 h2
    have h24 : 24 ≤ (h : ℤ) ∧ (h : ℤ) ≤ 26 := by omega
    rw [key t h hm, if_pos h24]
    omega
  · intro t h hm h27
    have h24 : ¬ (24 ≤ (h : ℤ) ∧ (h : ℤ) ≤ 26) := by omega
    rw [key t h hm, if_neg h24]
  · intro t hm
    by_cases ht : t = ""
    · simp [extractHourFromTimeSlot, ht]
    · rw [extractHourFromTimeSlot, if_neg ht]
      rw [hm]

/-- Witness for C4 at concrete tokens of each kind. -/
theorem c4_witness :
    extractHourFromTimeSlot "02:00-02:59" = 2 ∧
    extractHourFromTimeSlot "26-00" = 2 ∧
    extractHourFromTimeSlot "garbage" = -1 := by
  refine ⟨?_, ?_, ?_⟩
  · exact c4_hour_normalization.1 "02:00-02:59" 2 (by decide) (by decide)
  · have := (c4_hour_normalization.2.1 "26-00" 26 (by decide) (by decide) (by decide)).1
    simpa using this
  · exact c4_hour_normalization.2.2.2 "garbage" (by decide)

set_option maxRecDepth 4096 in
/-- C5 counterexample: a header-only outcome (zero surviving days)
yields `days = []` and `totalViewers = 0` as claimed, but
`peakHour = 23`, not the claimed `0`: all 24 hourly totals are 0, so
every hour ties at the maximum, the evening tie-set is [18..23], and
the latest evening hour is selected. -/
theorem c5_counterexample :
    (processViewerData c5Grid "M").map
      (fun r => (r.days, r.totalViewers, r.peakHour)) =
      Except.ok ([], 0, 23) ∧ (23 : ℤ) ≠ 0 := ⟨by rfl, by decide⟩

set_option maxRecDepth 4096 in
/-- C5 (amended): for every grid with a recognized header row whose
data rows leave zero surviving days, the summary has `days = []`,
`totalViewers = 0` — and `peakHour = 23` (the latest evening hour of
the all-zero tie), not 0. -/
theorem c5_empty_data_defaults (data : Grid) (label : String) (r : ProcessedMonthData)
    (h : processViewerData data label = Except.ok r) (hdays : r.days = []) :
    r.totalViewers = 0 ∧ r.peakHour = 23 := by
  obtain ⟨D, rfl⟩ := processViewerData_ok data label r h
  rw [summarizeMonth_days] at hdays
  subst hdays
  constructor
  · rfl
  · rw [summarizeMonth_peakHour]
    decide

set_option maxRecDepth 4096 in
/-- Witness for C5 at the concrete grid `c5Grid`. -/
theorem c5_witness :
    processViewerData c5Grid "M" = Except.ok (summarizeMonth "M" []) ∧
    (summarizeMonth "M" []).totalViewers = 0 ∧
    (summarizeMonth "M" []).peakHour = 23 := by
  refine ⟨by rfl, ?_⟩
  have := c5_empty_data_defaults c5Grid "M" (summarizeMonth "M" []) (by rfl) (by rfl)
  exact this

theorem tiedPeakIndices_eq_tiedsFrom (totals : List ℚ) :
    tiedPeakIndices totals = tiedsFrom 0 totals (listMax totals) := rfl

theorem tiedsFrom_cons (n : ℕ) (v : ℚ) (vs : List ℚ) (M : ℚ) :
    tiedsFrom n (v :: vs) M =
      (if v = M then [(n : ℤ)] else []) ++ tiedsFrom (n + 1) vs M := by
  by_cases h : v = M
  · have hn : ((n : ℤ) != -1) = true := by simp [bne_iff_ne]
    simp [tiedsFrom, List.enumFrom, h, hn]
  · simp [tiedsFrom, List.enumFrom, h]

theorem tiedsFrom_mem (l : List ℚ) :
    ∀ (n : ℕ) (M : ℚ) (x : ℤ), x ∈ tiedsFrom n l M ↔
      ∃ k : ℕ, k < l.length ∧ x = ((n : ℤ) + k) ∧ l.getD k 0 = M := by
  induction l with
  | nil =>
    intro n M x
    simp [tiedsFrom, List.enumFrom]
  | cons v vs ih =>
    intro n M x
    rw [tiedsFrom_cons]
    constructor
    · intro hx
      rcases List.mem_append.mp hx with hx | hx
      · by_cases h : v = M
        · simp [h] at hx
          exact ⟨0, by simp, by omega, by simpa [List.getD] using h⟩
        · simp [h] at hx
      · obtain ⟨k, hk, hxk, hM⟩ := (ih (n + 1) M x).mp hx
        have hxk2 : x = ((n : ℤ) + ((k + 1 : ℕ) : ℤ)) := by push_cast at hxk ⊢; omega
        exact ⟨k + 1, by simpa using Nat.succ_lt_succ hk, hxk2,
          by simpa [List.getD] using hM⟩
    · rintro ⟨k, hk, hxk, hM⟩
      cases k with
      | zero =>
        have hv : v = M := by simpa [List.getD] using hM
        simp [hv, hxk]
      | succ k2 =>
        refine List.mem_append.mpr (Or.inr ?_)
        have hxk2 : x = (((n + 1 : ℕ) : ℤ) + (k2 : ℤ)) := by push_cast at hxk ⊢; omega
        refine (ih (n + 1) M x).mpr ⟨k2, by simp only [List.length_cons] at hk; omega, hxk2, ?_⟩
        simpa [List.getD] using hM

theorem tiedsFrom_sorted (l : List ℚ) :
    ∀ (n : ℕ) (M : ℚ), List.Sorted (· < ·) (tiedsFrom n l M) := by
  induction l with
  | nil => intro n M; simp [tiedsFrom, List.enumFrom]
  | cons v vs ih =>
    intro n M
    rw [tiedsFrom_cons]
    by_cases h : v = M
    · simp only [h, if_pos rfl, List.singleton_append]
      refine List.sorted_cons.mpr ⟨?_, ih (n + 1) M⟩
      intro x hx
      obtain ⟨k, _, hxk, _⟩ := (tiedsFrom_mem vs (n + 1) M x).mp hx
      omega
    · simpa [h] using ih (n + 1) M

/-- In a strictly sorted list every member is at most the last
element. -/
theorem sorted_le_getLast :
    ∀ l : List ℤ, List.Sorted (· < ·) l → ∀ x ∈ l, x ≤ (l.getLast?).getD 0 := by
  intro l
  induction l with
  | nil => intro _ x hx; cases hx
  | cons a rest ih =>
    intro hs x hx
    rcases List.sorted_cons.mp hs with ⟨ha, hrest⟩
    cases rest with
    | nil =>
      rcases List.mem_cons.mp hx with h | h
      · subst h; simp
      · cases h
    | cons b rest2 =>
      have hlast : ((a :: b :: rest2).getLast?).getD 0 = ((b :: rest2).getLast?).getD 0 := by
        simp [List.getLast?_cons_cons]
      rw [hlast]
      rcases List.mem_cons.mp hx with h | h
      · subst h
        have hb : x < b := ha b (by simp)
        have hble := ih hrest b (by simp)
        omega
      · exact ih hrest x h

theorem getLastD_mem (l : List ℤ) (hne : l ≠ []) : (l.getLast?).getD 0 ∈ l := by
  cases h : l.getLast? with
  | none => exact absurd (List.getLast?_eq_none_iff.mp h) hne
  | some a =>
    have := List.mem_of_mem_getLast? h
    simpa using this

theorem listMax_mem_aux (xs : List ℚ) : ∀ x : ℚ, xs.foldl max x ∈ x :: xs := by
  induction xs with
  | nil => intro x; simp
  | cons y ys ih =>
    intro x
    have := ih (max x y)
    rcases List.mem_cons.mp this with h | h
    · rcases max_choice x y with hm | hm <;> rw [List.foldl_cons, h, hm] <;> simp
    · exact List.mem_cons.mpr (Or.inr (List.mem_cons.mpr (Or.inr h)))

theorem listMax_mem (l : List ℚ) (hne : l ≠ []) : listMax l ∈ l := by
  cases l with
  | nil => exact absurd rfl hne
  | cons x xs => simpa [listMax] using listMax_mem_aux xs x

theorem tiedPeakIndices_mem (totals : List ℚ) (x : ℤ) :
    x ∈ tiedPeakIndices totals ↔
      ∃ k : ℕ, k < totals.length ∧ x = (k : ℤ) ∧ totals.getD k 0 = listMax totals := by
  rw [tiedPeakIndices_eq_tiedsFrom]
  simpa using tiedsFrom_mem totals 0 (listMax totals) x

theorem tiedPeakIndices_sorted (totals : List ℚ) :
    List.Sorted (· < ·) (tiedPeakIndices totals) := by
  rw [tiedPeakIndices_eq_tiedsFrom]
  exact tiedsFrom_sorted totals 0 (listMax totals)

theorem tiedPeakIndices_ne_nil (totals : List ℚ) (hne : totals ≠ []) :
    tiedPeakIndices totals ≠ [] := by
  have hmem := listMax_mem totals hne
  obtain ⟨k, hk, hget⟩ := List.getElem_of_mem hmem
  intro hnil
  have : (k : ℤ) ∈ tiedPeakIndices totals := by
    refine (tiedPeakIndices_mem totals k).mpr ⟨k, hk, rfl, ?_⟩
    simp [List.getD, List.getElem?_eq_getElem hk, hget]
  rw [hnil] at this
  cases this

theorem eveningTies_mem (totals : List ℚ) (x : ℤ) :
    x ∈ eveningTies totals ↔ x ∈ tiedPeakIndices totals ∧ 18 ≤ x ∧ x ≤ 23 := by
  simp [eveningTies, List.mem_filter]

/-- The full behaviour of the peak-hour selection on a non-empty
totals array of at most 24 slots: the result is a tied index; when
some tied index is in the evening range the result is the largest such
index; otherwise it is the largest tied index. -/
theorem selectPeakHour_spec (totals : List ℚ) (hne : totals ≠ []) (hlen : totals.length ≤ 24) :
    selectPeakHour totals ∈ tiedPeakIndices totals ∧
    ((∃ x ∈ tiedPeakIndices totals, 18 ≤ x ∧ x ≤ 23) →
      18 ≤ selectPeakHour totals ∧ selectPeakHour totals ≤ 23 ∧
        ∀ x ∈ tiedPeakIndices totals, 18 ≤ x → x ≤ 23 → x ≤ selectPeakHour totals) ∧
    ((¬ ∃ x ∈ tiedPeakIndices totals, 18 ≤ x ∧ x ≤ 23) →
      ∀ x ∈ tiedPeakIndices totals, x ≤ selectPeakHour totals) := by
  have hTne := tiedPeakIndices_ne_nil totals hne
  have hTpos : 0 < (tiedPeakIndices totals).length := List.length_pos.mpr hTne
  have hTbound : ∀ x ∈ tiedPeakIndices totals, 0 ≤ x ∧ x < 24 := by
    intro x hx
    obtain ⟨k, hk, hxk, _⟩ := (tiedPeakIndices_mem totals x).mp hx
    omega
  have hEsorted : List.Sorted (· < ·) (eveningTies totals) :=
    List.Pairwise.filter _ (tiedPeakIndices_sorted totals)
  by_cases hE : 0 < (eveningTies totals).length
  · have hEne : eveningTies totals ≠ [] := List.length_pos.mp hE
    have hidx : rawPeakIndex totals = ((eveningTies totals).getLast?).getD 0 := by
      unfold rawPeakIndex
      rw [if_pos hTpos, if_pos hE]
    have hidxE : rawPeakIndex totals ∈ eveningTies totals := by
      rw [hidx]; exact getLastD_mem _ hEne
    obtain ⟨hidxT, hidx18, hidx23⟩ := (eveningTies_mem totals _).mp hidxE
    have hclamp : selectPeakHour totals = rawPeakIndex totals := by
      unfold selectPeakHour
      rw [if_pos ⟨by omega, by omega⟩]
    refine ⟨by rw [hclamp]; exact hidxT, ?_, ?_⟩
    · intro _
      refine ⟨by omega, by omega, ?_⟩
      intro x hx h18 h23
      rw [hclamp, hidx]
      exact sorted_le_getLast _ hEsorted x ((eveningTies_mem totals x).mpr ⟨hx, h18, h23⟩)
    · intro hno
      exact absurd ⟨rawPeakIndex totals, hidxT, hidx18, hidx23⟩ hno
  · have hidx : rawPeakIndex totals = ((tiedPeakIndices totals).getLast?).getD 0 := by
      unfold rawPeakIndex
      rw [if_pos hTpos, if_neg hE]
    have hidxT : rawPeakIndex totals ∈ tiedPeakIndices totals := by
      rw [hidx]; exact getLastD_mem _ hTne
    have hbd := hTbound _ hidxT
    have hclamp : selectPeakHour totals = rawPeakIndex totals := by
      unfold selectPeakHour
      rw [if_pos ⟨hbd.1, hbd.2⟩]
    refine ⟨by rw [hclamp]; exact hidxT, ?_, ?_⟩
    · intro hex
      obtain ⟨x, hx, h18, h23⟩ := hex
      have : x ∈ eveningTies totals := (eveningTies_mem totals x).mpr ⟨hx, h18, h23⟩
      have : 0 < (eveningTies totals).length := List.length_pos.mpr (by
        intro hnil; rw [hnil] at this; cases this)
      exact absurd this hE
    · intro _ x hx
      rw [hclamp, hidx]
      exact sorted_le_getLast _ (tiedPeakIndices_sorted totals) x hx

set_option maxRecDepth 8192 in
/-- C2: for every non-empty day list, the summary's peak hour is a
tied index of the maximal cumulative hourly total; it is the largest
tied evening hour (18-23) when one exists, and the largest tied hour
overall otherwise.  In particular a {11, 20, 22} tie selects 22. -/
theorem c2_peak_hour_selection :
    (∀ (label : String) (days : List DailyData), days ≠ [] →
      (summarizeMonth label days).peakHour ∈
        tiedPeakIndices (summarizeMonth label days).totalViewersPerHour ∧
      ((∃ x ∈ tiedPeakIndices (summarizeMonth label days).totalViewersPerHour,
          18 ≤ x ∧ x ≤ 23) →
        18 ≤ (summarizeMonth label days).peakHour ∧
        (summarizeMonth label days).peakHour ≤ 23 ∧
        ∀ x ∈ tiedPeakIndices (summarizeMonth label days).totalViewersPerHour,
          18 ≤ x → x ≤ 23 → x ≤ (summarizeMonth label days).peakHour) ∧
      ((¬ ∃ x ∈ tiedPeakIndices (summarizeMonth label days).totalViewersPerHour,
          18 ≤ x ∧ x ≤ 23) →
        ∀ x ∈ tiedPeakIndices (summarizeMonth label days).totalViewersPerHour,
          x ≤ (summarizeMonth label days).peakHour)) ∧
    (summarizeMonth "W" [c2Day]).peakHour = 22 := by
  constructor
  · intro label days hne
    have hlen : ((days.foldl accumDay hourAccumInit).totals).length = 24 := by
      rw [foldl_accumDay_totals, foldl_bumpHours_length]
      rfl
    have hne2 : (days.foldl accumDay hourAccumInit).totals ≠ [] := by
      intro h0
      rw [h0] at hlen
      simp at hlen
    rw [summarizeMonth_peakHour, summarizeMonth_totalsPerHour]
    exact selectPeakHour_spec _ hne2 (le_of_eq hlen)
  · with_unfolding_all decide

set_option maxRecDepth 8192 in
/-- Witness for C2 at the concrete tie `c2Day`. -/
theorem c2_witness :
    (summarizeMonth "W" [c2Day]).peakHour ∈
      tiedPeakIndices (summarizeMonth "W" [c2Day]).totalViewersPerHour ∧
    18 ≤ (summarizeMonth "W" [c2Day]).peakHour ∧
    (summarizeMonth "W" [c2Day]).peakHour ≤ 23 ∧
    (summarizeMonth "W" [c2Day]).peakHour = 22 := by
  have h := c2_peak_hour_selection.1 "W" [c2Day] (by simp)
  have hev := h.2.1 (by with_unfolding_all decide)
  exact ⟨h.1, hev.1, hev.2.1, c2_peak_hour_selection.2⟩

/-! ## Claim C3 -/

theorem summarizeMonth_maxs (L : String) (D : List DailyData) :
    (summarizeMonth L D).maxViewersPerHour = (D.foldl accumDay hourAccumInit).maxs := rfl

theorem aggregateMulti_maxs (ms : List ProcessedMonthData) :
    (aggregateMulti ms).maxViewersPerHour =
      ((allDaysOf ms).foldl accumDay hourAccumInit).maxs := rfl

theorem roundedAverages_getD (acc : List ℚ) (len : ℕ) (h : ℕ)
    (hlen : 0 < len) (hh : h < acc.length) :
    (roundedAverages acc len).getD h 0 = (jround (acc.getD h 0 / (len : ℚ)) : ℚ) := by
  rw [roundedAverages, if_pos hlen]
  simp [List.getD, List.getElem?_map, List.getElem?_eq_getElem hh]

/-- C3: aggregating two single-day summaries with distinct dates gives
per-hour totals `a_h + b_h` and averages `round((a_h + b_h)/2)`, and
the per-hour total/max/average arrays coincide with a fresh
`summarizeMonth` run over the sorted two-day list. -/
theorem c3_fresh_aggregation (d1 d2 : DailyData) (s1 s2 : ProcessedMonthData)
    (r : ProcessedMonthData) (h1 : s1.days = [d1]) (h2 : s2.days = [d2])
    (hdate : d1.date ≠ d2.date) (hagg : aggregateMonthsData [s1, s2] = Except.ok r) :
    (∀ h : ℕ, h < 24 →
      r.totalViewersPerHour.getD h 0 =
        d1.hourlyViewers.getD h 0 + d2.hourlyViewers.getD h 0 ∧
      r.averageHourlyViewers.getD h 0 =
        (jround ((d1.hourlyViewers.getD h 0 + d2.hourlyViewers.getD h 0) / 2) : ℚ)) ∧
    r.totalViewersPerHour =
      (summarizeMonth "" (sortByCmp (fun a b => dateCompare a.date b.date) [d1, d2])).totalViewersPerHour ∧
    r.averageHourlyViewers =
      (summarizeMonth "" (sortByCmp (fun a b => dateCompare a.date b.date) [d1, d2])).averageHourlyViewers ∧
    r.maxViewersPerHour =
      (summarizeMonth "" (sortByCmp (fun a b => dateCompare a.date b.date) [d1, d2])).maxViewersPerHour := by
  have hr := aggregateMonthsData_ok [s1, s2] r (by simp) hagg
  subst hr
  have hunion : unionDays [s1, s2] = [(d1.date, d1), (d2.date, d2)] := by
    simp [unionDays, h1, h2, upsert, hdate]
  have hall : allDaysOf [s1, s2] =
      sortByCmp (fun a b => dateCompare a.date b.date) [d1, d2] := by
    rw [allDaysOf, hunion]
    rfl
  have hperm : (allDaysOf [s1, s2]).Perm [d1, d2] := by
    rw [hall]; exact sortByCmp_perm _ _
  have hlen2 : (allDaysOf [s1, s2]).length = 2 := by
    rw [hall, sortByCmp_length]
    rfl
  have hinitT : hourAccumInit.totals = List.replicate 24 (0 : ℚ) := rfl
  have hinitA : hourAccumInit.avgAcc = List.replicate 24 (0 : ℚ) := rfl
  refine ⟨?_, ?_, ?_, ?_⟩
  · intro h hh
    have hinitlen : h < (hourAccumInit.totals).length := by
      show h < (List.replicate 24 (0 : ℚ)).length
      simpa using hh
    have hsum : ((allDaysOf [s1, s2]).map (fun d => d.hourlyViewers.getD h 0)).sum =
        d1.hourlyViewers.getD h 0 + d2.hourlyViewers.getD h 0 := by
      rw [(hperm.map (fun d => d.hourlyViewers.getD h 0)).sum_eq]
      simp
    constructor
    · rw [aggregateMulti_totalsPerHour, foldl_accumDay_totals,
        foldl_bumpHours_getD _ _ _ hinitlen, hinitT, getD_replicate_zero, zero_add, hsum]
    · have hinitlen2 : h < (hourAccumInit.avgAcc).length := by
        show h < (List.replicate 24 (0 : ℚ)).length
        simpa using hh
      have hacclen : h < ((allDaysOf [s1, s2]).foldl accumDay hourAccumInit).avgAcc.length := by
        rw [foldl_accumDay_avgAcc, foldl_bumpHours_length]
        exact hinitlen2
      rw [aggregateMulti_averages, hlen2,
        roundedAverages_getD _ _ _ (by omega) hacclen, foldl_accumDay_avgAcc,
        foldl_bumpHours_getD _ _ _ hinitlen2, hinitA, getD_replicate_zero, zero_add, hsum]
      norm_num
  · rw [aggregateMulti_totalsPerHour, summarizeMonth_totalsPerHour, hall]
  · rw [aggregateMulti_averages, summarizeMonth_averages, hall, sortByCmp_length]
  · rw [aggregateMulti_maxs, summarizeMonth_maxs, hall]

set_option maxRecDepth 8192 in
/-- Witness for C3 at the concrete summaries `wSum1`, `wSum2` and
hour 5. -/
theorem c3_witness :
    aggregateMonthsData [wSum1, wSum2] = Except.ok (aggregateMulti [wSum1, wSum2]) ∧
    (aggregateMulti [wSum1, wSum2]).totalViewersPerHour.getD 5 0 =
      wDay1.hourlyViewers.getD 5 0 + wDay2.hourlyViewers.getD 5 0 ∧
    (aggregateMulti [wSum1, wSum2]).averageHourlyViewers.getD 5 0 =
      (jround ((wDay1.hourlyViewers.getD 5 0 + wDay2.hourlyViewers.getD 5 0) / 2) : ℚ) := by
  have h := c3_fresh_aggregation wDay1 wDay2 wSum1 wSum2 (aggregateMulti [wSum1, wSum2])
    rfl rfl (by decide) rfl
  exact ⟨rfl, (h.1 5 (by omega)).1, (h.1 5 (by omega)).2⟩

/-! ## Claim C6 -/

theorem mem_upsert {α : Type} (k : String) (v : α) :
    ∀ (m : List (String × α)) (p : String × α), p ∈ upsert m k v → p ∈ m ∨ p = (k, v) := by
  intro m
  induction m with
  | nil => intro p hp; simp [upsert] at hp; exact Or.inr hp
  | cons q rest ih =>
    intro p hp
    by_cases h : q.1 = k
    · rw [upsert] at hp
      rw [if_pos h] at hp
      rcases List.mem_cons.mp hp with h2 | h2
      · exact Or.inr h2
      · exact Or.inl (List.mem_cons.mpr (Or.inr h2))
    · rw [upsert] at hp
      rw [if_neg h] at hp
      rcases List.mem_cons.mp hp with h2 | h2
      · exact Or.inl (List.mem_cons.mpr (Or.inl h2))
      · rcases ih p h2 with h3 | h3
        · exact Or.inl (List.mem_cons.mpr (Or.inr h3))
        · exact Or.inr h3

theorem mapGet?_mem {α : Type} (k : String) (v : α) :
    ∀ m : List (String × α), mapGet? m k = some v → (k, v) ∈ m := by
  intro m
  induction m with
  | nil => intro h; simp [mapGet?] at h
  | cons q rest ih =>
    intro h
    rw [mapGet?] at h
    by_cases hq : q.1 = k
    · rw [if_pos hq] at h
      have : v = q.2 := by injection h with h2; exact h2.symm
      subst this
      subst hq
      simp
    · rw [if_neg hq] at h
      exact List.mem_cons.mpr (Or.inr (ih h))

theorem upsert_wf (m : List (String × DailyData)) (k : String) (v : DailyData)
    (hm : DayMapWF m) (hv : v.hourlyViewers.length = 24 ∧ v.hourlyPercentages.length = 24) :
    DayMapWF (upsert m k v) := by
  intro p hp
  rcases mem_upsert k v m p hp with h | h
  · exact hm p h
  · rw [h]; exact hv

theorem processRow_wf (tc pc : ℕ) (kc : Option ℕ) (m : List (String × DailyData)) (row : Row)
    (hm : DayMapWF m) : DayMapWF (processRow tc pc kc m row) := by
  rw [processRow]
  cases hp : rowParse tc pc kc row with
  | none => exact hm
  | some t =>
    obtain ⟨ds, dow, hour, hv, pct, tdv⟩ := t
    have hnew : (newDay ds dow tdv).hourlyViewers.length = 24 ∧
        (newDay ds dow tdv).hourlyPercentages.length = 24 := by
      constructor <;> simp [newDay]
    cases hg0 : mapGet? m ds with
    | none =>
      simp only [hg0, Option.isNone_none, if_true, mapGet?_upsert_self, Option.getD_some]
      refine upsert_wf _ ds _ (upsert_wf m ds _ hm hnew) ?_
      constructor
      · simpa using hnew.1
      · simpa using hnew.2
    | some d0 =>
      have hd0 := hm (ds, d0) (mapGet?_mem ds d0 m hg0)
      simp only [hg0, Option.isNone_some, Bool.false_eq_true, if_false, Option.getD_some]
      refine upsert_wf m ds _ hm ?_
      constructor
      · simpa using hd0.1
      · simpa using hd0.2

theorem foldl_processRow_wf (tc pc : ℕ) (kc : Option ℕ) :
    ∀ (rows : List Row) (m : List (String × DailyData)), DayMapWF m →
      DayMapWF (rows.foldl (processRow tc pc kc) m) := by
  intro rows
  induction rows with
  | nil => intro m hm; exact hm
  | cons r rest ih =>
    intro m hm
    exact ih (processRow tc pc kc m r) (processRow_wf tc pc kc m r hm)

/-- Processing one parsed row writes the row's computed viewer figure
and percentage into its hour slot of its day — regardless of what the
map already holds for that (date, hour). -/
theorem processRow_writes (tc pc : ℕ) (kc : Option ℕ) (m : List (String × DailyData))
    (row : Row) (ds dow : String) (hour : ℤ) (hv pct tdv : ℚ)
    (hp : rowParse tc pc kc row = some (ds, dow, hour, hv, pct, tdv))
    (hh : hour.toNat < 24) (hm : DayMapWF m) :
    (mapGet? (processRow tc pc kc m row) ds).map
      (fun d => (d.hourlyViewers.getD hour.toNat 0, d.hourlyPercentages.getD hour.toNat 0)) =
      some (hv, pct) := by
  rw [processRow, hp]
  have hnew : (newDay ds dow tdv).hourlyViewers.length = 24 ∧
      (newDay ds dow tdv).hourlyPercentages.length = 24 := by
    constructor <;> simp [newDay]
  have main : ∀ day : DailyData, day.hourlyViewers.length = 24 →
      day.hourlyPercentages.length = 24 →
      ((day.hourlyViewers.set hour.toNat hv).getD hour.toNat 0,
        (day.hourlyPercentages.set hour.toNat pct).getD hour.toNat 0) = (hv, pct) := by
    intro day hl1 hl2
    have hb1 : hour.toNat < day.hourlyViewers.length := by omega
    have hb2 : hour.toNat < day.hourlyPercentages.length := by omega
    refine Prod.ext ?_ ?_
    · simp [List.getD, List.getElem?_set_self, hb1]
    · simp [List.getD, List.getElem?_set_self, hb2]
  cases hg0 : mapGet? m ds with
  | none =>
    simp only [hg0, Option.isNone_none, if_true, mapGet?_upsert_self, Option.getD_some,
      mapGet?_upsert_self, Option.map_some]
    have := main (newDay ds dow tdv) hnew.1 hnew.2
    simpa using this
  | some d0 =>
    have hd0 := hm (ds, d0) (mapGet?_mem ds d0 m hg0)
    simp only [hg0, Option.isNone_some, Bool.false_eq_true, if_false, Option.getD_some,
      mapGet?_upsert_self, Option.map_some]
    have := main d0 hd0.1 hd0.2
    simpa using this

/-- C6: when the data rows contain two rows that parse to the same
canonical date and the same hour, the final map holds exactly the
later row's computed viewer value and percentage in that hour slot
(values are overwritten, never summed). -/
theorem c6_duplicate_hour_overwrite (tc pc : ℕ) (kc : Option ℕ)
    (rs1 rs2 : List Row) (row1 row2 : Row) (ds dow1 dow2 : String) (hour : ℤ)
    (hv1 pct1 tdv1 hv2 pct2 tdv2 : ℚ)
    (hp1 : rowParse tc pc kc row1 = some (ds, dow1, hour, hv1, pct1, tdv1))
    (hp2 : rowParse tc pc kc row2 = some (ds, dow2, hour, hv2, pct2, tdv2))
    (hh : hour.toNat < 24) :
    (mapGet? (((rs1 ++ row1 :: rs2) ++ [row2]).foldl (processRow tc pc kc) []) ds).map
      (fun d => (d.hourlyViewers.getD hour.toNat 0, d.hourlyPercentages.getD hour.toNat 0)) =
      some (hv2, pct2) := by
  rw [List.foldl_append]
  have hwf : DayMapWF ((rs1 ++ row1 :: rs2).foldl (processRow tc pc kc) []) := by
    refine foldl_processRow_wf tc pc kc _ [] ?_
    intro p hp
    cases hp
  rw [List.foldl_cons, List.foldl_nil]
  exact processRow_writes tc pc kc _ row2 ds dow2 hour hv2 pct2 tdv2 hp2 hh hwf

set_option maxRecDepth 8192 in
/-- Witness for C6 at the concrete duplicate rows `wRow1`, `wRow2`
(hour 20 of 05-01-2024): the later row's 4% of 1000 viewers (40)
survives, not the earlier 2.5% figure (25). -/
theorem c6_witness :
    (mapGet? ((([] ++ wRow1 :: []) ++ [wRow2]).foldl (processRow 4 6 none) []) "05-01-2024").map
      (fun d => (d.hourlyViewers.getD 20 0, d.hourlyPercentages.getD 20 0)) =
      some (40, 1/25) := by
  exact c6_duplicate_hour_overwrite 4 6 none [] [] wRow1 wRow2 "05-01-2024" "Vr" "Vr" 20
    25 (1/40) 1000 40 (1/25) 1000
    (by with_unfolding_all decide) (by with_unfolding_all decide) (by decide)

/-! ## Claim C7 -/

theorem getLast?_cons_ne_nil {α : Type} (a : α) (l : List α) (h : l ≠ []) :
    (a :: l).getLast? = l.getLast? := by
  cases l with
  | nil => exact absurd rfl h
  | cons b m => exact List.getLast?_cons_cons

theorem fillEndTimes_length : ∀ l : List ProgramData, (fillEndTimes l).length = l.length
  | [] => rfl
  | [p] => rfl
  | p :: q :: rest => by
    have ih := fillEndTimes_length (q :: rest)
    simp only [fillEndTimes, List.length_cons] at ih ⊢
    omega

theorem fillEndTimes_ne_nil (l : List ProgramData) (h : l ≠ []) : fillEndTimes l ≠ [] := by
  intro h0
  have := fillEndTimes_length l
  rw [h0] at this
  cases l with
  | nil => exact absurd rfl h
  | cons a m => simp at this

theorem fillEndTimes_get? :
    ∀ (l : List ProgramData) (i : ℕ) (a b : ProgramData), l.get? i = some a →
      l.get? (i + 1) = some b → (fillEndTimes l).get? i = some (fillStep a b)
  | [], i, a, b, h1, _ => by simp at h1
  | [p], i, a, b, h1, h2 => by
    cases i with
    | zero => simp at h2
    | succ j => simp at h1
  | p :: q :: rest, i, a, b, h1, h2 => by
    cases i with
    | zero =>
      simp only [List.get?] at h1 h2
      injection h1 with h1
      injection h2 with h2
      subst h1
      subst h2
      rfl
    | succ j =>
      have ih := fillEndTimes_get? (q :: rest) j a b (by simpa using h1) (by simpa using h2)
      simpa [fillEndTimes] using ih

theorem fillEndTimes_getLast? :
    ∀ l : List ProgramData, (fillEndTimes l).getLast? = l.getLast?
  | [] => rfl
  | [p] => rfl
  | p :: q :: rest => by
    have ih := fillEndTimes_getLast? (q :: rest)
    show (fillStep p q :: fillEndTimes (q :: rest)).getLast? = _
    rw [getLast?_cons_ne_nil _ _ (fillEndTimes_ne_nil _ (by simp)), ih,
      List.getLast?_cons_cons]

theorem updateLast_get? {α : Type} (f : α → α) :
    ∀ (l : List α) (i : ℕ), i + 1 < l.length → (updateLast f l).get? i = l.get? i
  | [], i, h => by simp at h
  | [x], i, h => by simp at h
  | x :: y :: rest, i, h => by
    cases i with
    | zero => rfl
    | succ j =>
      have ih := updateLast_get? f (y :: rest) j (by simpa using h)
      simpa [updateLast] using ih

theorem updateLast_ne_nil {α : Type} (f : α → α) (l : List α) (h : l ≠ []) :
    updateLast f l ≠ [] := by
  cases l with
  | nil => exact absurd rfl h
  | cons x m => cases m <;> simp [updateLast]

theorem updateLast_getLast? {α : Type} (f : α → α) :
    ∀ l : List α, (updateLast f l).getLast? = (l.getLast?).map f
  | [] => rfl
  | [x] => rfl
  | x :: y :: rest => by
    have ih := updateLast_getLast? f (y :: rest)
    show (x :: updateLast f (y :: rest)).getLast? = _
    rw [getLast?_cons_ne_nil _ _ (updateLast_ne_nil f _ (by simp)), ih,
      List.getLast?_cons_cons]

theorem normalFill_endTime (p q : ProgramData) :
    (normalFill p q).endTime = some q.startTime := by
  rw [normalFill]
  split <;> rfl

/-- C7: after end-time back-fill, every entry except the last in the
(week, startTime, sequence) sort order ends when its successor starts
(same-slot siblings excepted); the last entry of a day with no end
time gets an end time from its duration when it has one, and the
60-minute default (duration 60, end one hour after start) otherwise.
Concretely, programs at 20:00, 20:30, 21:15 end at 20:30, 21:15 and
22:15 (default). -/
theorem c7_end_time_backfill :
    (∀ (programs : List ProgramData) (i : ℕ) (a b : ProgramData),
      (sortPrograms (assignSequences programs)).get? i = some a →
      (sortPrograms (assignSequences programs)).get? (i + 1) = some b →
      isSibling a b = false →
      ((calculateEndTimesForDay programs).get? i).map ProgramData.endTime =
        some (some b.startTime)) ∧
    (∀ (programs : List ProgramData) (lp : ProgramData),
      (sortPrograms (assignSequences programs)).getLast? = some lp →
      lp.endTime = none →
      (numTruthy lp.duration = true →
        ((calculateEndTimesForDay programs).getLast?).map ProgramData.endTime =
          some (some (endTimeFromDuration lp))) ∧
      (numTruthy lp.duration = false →
        ((calculateEndTimesForDay programs).getLast?).map
          (fun p => (p.duration, p.endTime)) =
          some (some 60, some (defaultHourLater lp)))) ∧
    (calculateEndTimesForDay [c7P1, c7P2, c7P3]).map
      (fun p => (p.startTime, p.endTime, p.duration)) =
      [("20:00", some "20:30", some 30), ("20:30", some "21:15", some 45),
       ("21:15", some "22:15", some 60)] := by
  refine ⟨?_, ?_, ?_⟩
  · intro programs i a b h1 h2 hsib
    set s := sortPrograms (assignSequences programs) with hs
    have hlt : i + 1 < s.length := by
      by_contra hge
      rw [List.get?_eq_none.mpr (by omega)] at h2
      cases h2
    have hflen : i + 1 < (fillEndTimes s).length := by
      rw [fillEndTimes_length]; exact hlt
    show ((updateLast lastFix (fillEndTimes s)).get? i).map ProgramData.endTime = _
    rw [updateLast_get? lastFix _ i hflen, fillEndTimes_get? s i a b h1 h2]
    simp [fillStep, hsib, normalFill_endTime]
  · intro programs lp hlast hend
    set s := sortPrograms (assignSequences programs) with hs
    have hgl : (calculateEndTimesForDay programs).getLast? = some (lastFix lp) := by
      show (updateLast lastFix (fillEndTimes s)).getLast? = _
      rw [updateLast_getLast?, fillEndTimes_getLast?, hlast]
      rfl
    constructor
    · intro hdur
      rw [hgl]
      simp [lastFix, hdur, hend]
    · intro hdur
      rw [hgl]
      simp [lastFix, hdur, hend]
  · with_unfolding_all decide

set_option maxRecDepth 8192 in
/-- Witness for C7 at the three concrete programs. -/
theorem c7_witness :
    ((calculateEndTimesForDay [c7P1, c7P2, c7P3]).get? 0).map ProgramData.endTime =
      some (some "20:30") ∧
    ((calculateEndTimesForDay [c7P1, c7P2, c7P3]).getLast?).map
      (fun p => (p.duration, p.endTime)) = some (some 60, some "22:15") := by
  constructor
  · have := c7_end_time_backfill.1 [c7P1, c7P2, c7P3] 0 c7P1 c7P2
      (by with_unfolding_all decide) (by with_unfolding_all decide)
      (by with_unfolding_all decide)
    simpa using this
  · have := (c7_end_time_backfill.2.1 [c7P1, c7P2, c7P3] c7P3
      (by with_unfolding_all decide) (by with_unfolding_all decide)).2
      (by with_unfolding_all decide)
    have h2 : defaultHourLater c7P3 = "22:15" := by with_unfolding_all decide
    rw [h2] at this
    exact this

/-! ## Claim C8 -/

theorem upsert_append_of_not_mem {α : Type} (k : String) (v : α) :
    ∀ m : List (String × α), k ∉ m.map Prod.fst → upsert m k v = m ++ [(k, v)] := by
  intro m
  induction m with
  | nil => intro _; rfl
  | cons p rest ih =>
    intro hk
    have h1 : p.1 ≠ k := by
      intro h
      exact hk (by simp [h.symm])
    have h2 : k ∉ rest.map Prod.fst := by
      intro h
      exact hk (by simp [h])
    rw [upsert, if_neg h1, ih h2]
    rfl

theorem foldl_upsert_of_nodup :
    ∀ (entries acc : List (String × List ProgramData)),
      (∀ k ∈ entries.map Prod.fst, k ∉ acc.map Prod.fst) →
      (entries.map Prod.fst).Nodup →
      entries.foldl (fun obj p => upsert obj p.1 p.2) acc = acc ++ entries := by
  intro entries
  induction entries with
  | nil => intro acc _ _; simp
  | cons p rest ih =>
    intro acc hdisj hnodup
    rw [List.foldl_cons, upsert_append_of_not_mem p.1 p.2 acc (hdisj p.1 (by simp))]
    rw [List.map_cons, List.nodup_cons] at hnodup
    have hd2 : ∀ k ∈ rest.map Prod.fst, k ∉ (acc ++ [p]).map Prod.fst := by
      intro k hk
      simp only [List.map_append, List.mem_append]
      rintro (h | h)
      · exact hdisj k (by simp [hk]) h
      · simp at h
        rw [h] at hk
        exact hnodup.1 hk
    rw [ih (acc ++ [p]) hd2 hnodup.2]
    simp

theorem objFromEntries_id (entries : List (String × List ProgramData))
    (hnodup : (entries.map Prod.fst).Nodup) : objFromEntries entries = entries := by
  have := foldl_upsert_of_nodup entries [] (by simp) hnodup
  simpa [objFromEntries] using this

/-- C8: saving a schedule and loading it back reproduces the day map
exactly — same date keys in the same order, each mapped to the same
program list — whenever the date keys are distinct (a `Map` guarantees
this for the schedules the app builds). -/
theorem c8_schedule_roundtrip (d : ScheduleData) (st : Store)
    (hnodup : (d.days.map Prod.fst).Nodup) :
    (loadProgramData (saveProgramData d st)).map ScheduleData.days = some d.days ∧
    (loadProgramData (saveProgramData d st)).map ScheduleData.weekNumber =
      some d.weekNumber ∧
    (loadProgramData (saveProgramData d st)).map ScheduleData.year = some d.year := by
  have hload : loadProgramData (saveProgramData d st) =
      some { weekNumber := d.weekNumber, year := d.year,
             days := objFromEntries d.days } := rfl
  rw [hload, objFromEntries_id d.days hnodup]
  exact ⟨rfl, rfl, rfl⟩

/-- Witness for C8 at a concrete two-day schedule. -/
theorem c8_witness :
    (loadProgramData (saveProgramData c8Schedule default)).map ScheduleData.days =
      some [("05-01-2024", [c7P1]), ("06-01-2024", [c7P2, c7P3])] ∧
    (loadProgramData (saveProgramData c8Schedule default)).map ScheduleData.weekNumber =
      some 7 := by
  have h := c8_schedule_roundtrip c8Schedule default (by decide)
  exact ⟨h.1, h.2.1⟩
